import Mathlib

/-!
Verification of the download-bot source (`src/bot.js`) against its
natural-language specification.

The JavaScript source is shallowly embedded: JavaScript strings become Lean
`String`s (manipulated through their character lists), the mutable module-level
globals (`activeDownloadCount`, `currentDownloadProcess`, the downloads
directory) become an explicit `BotState` record threaded through the handler
functions, asynchronous completions (process exit, transmission outcome) become
explicit oracle arguments, and observable side effects (messages, spawns,
kills, file deletions, log appends) become an explicit trace of `Outgoing`
actions.  Thrown JavaScript exceptions are modeled with `Except`/`Option`.
-/

/-! ## Character-list string primitives

JavaScript string operations used by the source (`includes`, `split`,
`startsWith`, `trim`, `toLowerCase`) are modeled on `List Char`. -/

/-- Boolean test that `pre` is a leading segment of `l` (used to model the
JavaScript substring searches). -/
def isPrefixL : List Char → List Char → Bool
  | [], _ => true
  | _ :: _, [] => false
  | a :: as, b :: bs => a == b && isPrefixL as bs

/-- Models JavaScript `haystack.includes(needle)`: some suffix of the haystack
starts with the needle. -/
def containsSub (sub : List Char) : List Char → Bool
  | [] => sub.isEmpty
  | c :: rest => isPrefixL sub (c :: rest) || containsSub sub rest

/-- Models JavaScript `s.split(sep)` for a non-empty separator: the pieces of
`s` between non-overlapping left-to-right occurrences of `sep`. -/
def consHead (c : Char) : List (List Char) → List (List Char)
  | [] => [[c]]
  | p :: ps => (c :: p) :: ps

/-- Fuel-indexed worker for `splitL`; structural recursion on the fuel keeps
the definition kernel-reducible.  One unit of fuel is spent per character of
the input, so `xs.length` fuel always suffices. -/
def splitLF (sep : List Char) : Nat → List Char → List (List Char)
  | _, [] => [[]]
  | 0, xs => [xs]
  | fuel + 1, c :: rest =>
    if isPrefixL sep (c :: rest) then
      [] :: splitLF sep fuel (rest.drop (sep.length - 1))
    else
      consHead c (splitLF sep fuel rest)

/-- The worker for `jsSplit`; `splitL sep xs` lists the pieces of `xs` between
occurrences of `sep` (assumes `sep` non-empty, which holds at every use). -/
def splitL (sep xs : List Char) : List (List Char) :=
  splitLF sep xs.length xs

/-- The prefix of `xs` strictly before the first occurrence of `sep`
(all of `xs` when `sep` does not occur). -/
def takeUntilSub (sep : List Char) : List Char → List Char
  | [] => []
  | c :: rest =>
    if isPrefixL sep (c :: rest) then [] else c :: takeUntilSub sep rest

/-- The remainder of `xs` just after the first occurrence of `sep`
(`[]` when `sep` does not occur). -/
def dropThroughSub (sep : List Char) : List Char → List Char
  | [] => []
  | c :: rest =>
    if isPrefixL sep (c :: rest) then (c :: rest).drop sep.length
    else dropThroughSub sep rest

/-- Models JavaScript `s.includes(sub)`. -/
def jsIncludes (s sub : String) : Bool :=
  containsSub sub.toList s.toList

/-- Models JavaScript `s.split(sep)` (non-empty separator). -/
def jsSplit (s sep : String) : List (List Char) :=
  splitL sep.toList s.toList

/-- Models JavaScript `s.startsWith(pre)`. -/
def jsStartsWith (s pre : String) : Bool :=
  isPrefixL pre.toList s.toList

/-- Models JavaScript `s.trim()`: strips leading and trailing whitespace. -/
def jsTrim (s : String) : String :=
  (((s.toList.dropWhile Char.isWhitespace).reverse.dropWhile
      Char.isWhitespace).reverse).asString

/-- Models JavaScript `s.toLowerCase()` on the ASCII range. -/
def jsToLower (s : String) : String :=
  (s.toList.map Char.toLower).asString

/-- Models the JavaScript `a || b` idiom on strings: the empty string is falsy
and replaced by the fallback. -/
def jsOr (a b : String) : String :=
  if a = "" then b else a

/-! ## URL Validator (bot.js lines 54-71) -/

/-- bot.js lines 55-61: rewrites YouTube Shorts URLs to the watch form.  The
source is `url.split('/shorts/')[1]?.split('?')[0]` interpolated into the
watch prefix; `List.get!` models the JavaScript index accesses (the index-1
piece exists whenever the marker occurs, so the optional chaining never
produces `undefined` in the taken branch). -/
def normalizeUrl (url : String) : String :=
  if jsIncludes url "youtube.com/shorts/" then
    let videoId := (splitL ("?".toList) ((jsSplit url "/shorts/").get! 1)).get! 0
    "https://www.youtube.com/watch?v=" ++ videoId.asString
  else url

/-- bot.js lines 18-27: the fixed allow-list of supported domains. -/
def SUPPORTED_DOMAINS : List String :=
  ["youtube.com", "youtu.be", "vimeo.com", "dailymotion.com",
   "soundcloud.com", "facebook.com", "1024terabox.com", "instagram.com"]

/-- ASCII letter test (WHATWG scheme start). -/
def isAsciiAlpha (c : Char) : Bool :=
  ('a' ≤ c && c ≤ 'z') || ('A' ≤ c && c ≤ 'Z')

/-- WHATWG scheme-continuation characters. -/
def isSchemeChar (c : Char) : Bool :=
  isAsciiAlpha c || c.isDigit || c == '+' || c == '-' || c == '.'

/-- The WHATWG special schemes, which tolerate missing `//` slashes. -/
def specialSchemes : List String :=
  ["ftp", "file", "http", "https", "ws", "wss"]

/-- The authority text after its last `@` (userinfo removed). -/
def afterLastAt (l : List Char) : List Char :=
  (l.reverse.takeWhile (fun c => !(c == '@'))).reverse

/-- Models the WHATWG `new URL(u).hostname` consulted on bot.js line 66,
simplified to what `isSupportedDomain` observes: the parse succeeds iff the
input starts with `<ASCII letter><scheme chars>:` (otherwise the constructor
throws, modeled as `none`); for a special scheme the authority follows any run
of slashes, for other schemes only an explicit `//` introduces an authority
(otherwise the hostname is empty); the hostname is the authority up to the
first `/`, `?` or `#`, with userinfo and any `:port` removed and ASCII letters
lowercased; an empty hostname under a special scheme is a parse error.
Simplifications (none observable by the claims): no backslash tolerance, no
IPv6 brackets, no percent-decoding, no IDNA mapping. -/
def parseHostname (url : String) : Option String :=
  match url.toList with
  | [] => none
  | c :: rest =>
    if isAsciiAlpha c then
      match rest.dropWhile isSchemeChar with
      | ':' :: tail =>
        let scheme := ((c :: rest.takeWhile isSchemeChar).map Char.toLower).asString
        let stopChar := fun ch => !(ch == '/') && !(ch == '?') && !(ch == '#')
        if specialSchemes.contains scheme then
          let auth := (tail.dropWhile (fun ch => ch == '/')).takeWhile stopChar
          let host := (afterLastAt auth).takeWhile (fun ch => !(ch == ':'))
          if host.isEmpty then none
          else some ((host.map Char.toLower).asString)
        else if isPrefixL ['/', '/'] tail then
          let auth := (tail.drop 2).takeWhile stopChar
          let host := (afterLastAt auth).takeWhile (fun ch => !(ch == ':'))
          some ((host.map Char.toLower).asString)
        else some ""
      | _ => none
    else none

/-- bot.js lines 64-71: `new URL(url)` inside `try`; a parse failure is caught
and mapped to `false`, otherwise the hostname is tested for *containment* of
any allow-list entry (`hostname.includes(domain)`). -/
def isSupportedDomain (url : String) : Bool :=
  match parseHostname url with
  | none => false
  | some hostname => SUPPORTED_DOMAINS.any (fun domain => jsIncludes hostname domain)

example : normalizeUrl "https://www.youtube.com/shorts/abc123?feature=share"
    = "https://www.youtube.com/watch?v=abc123" := by decide
example : normalizeUrl "https://youtu.be/abc" = "https://youtu.be/abc" := by decide
example : normalizeUrl "http://a/shorts/x/youtube.com/shorts/y"
    = "https://www.youtube.com/watch?v=x/youtube.com" := by decide
example : parseHostname "https://notyoutube.com.evil.example/path"
    = some "notyoutube.com.evil.example" := by decide
example : isSupportedDomain "https://notyoutube.com.evil.example/path" = true := by decide
example : isSupportedDomain "www.youtube.com/watch" = false := by decide
example : isSupportedDomain "http:youtube.com/w" = true := by decide
example : parseHostname "" = none := by decide
example : parseHostname "mailto:bob" = some "" := by decide
example : isSupportedDomain "https://user:pw@youtube.com:443/x?q" = true := by decide

/-! ## Structural lemmas about the string primitives (used for C3) -/

theorem isPrefixL_trans : ∀ {a b c : List Char}, isPrefixL a b = true →
    isPrefixL b c = true → isPrefixL a c = true := by
  intro a
  induction a with
  | nil => intro b c _ _; rfl
  | cons x as ih =>
    intro b c hab hbc
    cases b with
    | nil => simp [isPrefixL] at hab
    | cons y bs =>
      cases c with
      | nil => simp [isPrefixL] at hbc
      | cons z cs =>
        simp only [isPrefixL, Bool.and_eq_true, beq_iff_eq] at hab hbc ⊢
        exact ⟨hab.1.trans hbc.1, ih hab.2 hbc.2⟩

theorem isPrefixL_takeUntilSub (sep : List Char) :
    ∀ xs, isPrefixL (takeUntilSub sep xs) xs = true := by
  intro xs
  induction xs with
  | nil => rfl
  | cons c rest ih =>
    by_cases hp : isPrefixL sep (c :: rest) = true
    · simp [takeUntilSub, hp, isPrefixL]
    · simp [takeUntilSub, hp, isPrefixL, ih]

theorem containsSub_nil_of_ne (sep : List Char) (hs : sep ≠ []) :
    containsSub sep [] = false := by
  cases sep with
  | nil => exact absurd rfl hs
  | cons s ss => rfl

theorem containsSub_takeUntilSub (sep : List Char) (hs : sep ≠ []) :
    ∀ xs, containsSub sep (takeUntilSub sep xs) = false := by
  intro xs
  induction xs with
  | nil => exact containsSub_nil_of_ne sep hs
  | cons c rest ih =>
    by_cases hp : isPrefixL sep (c :: rest) = true
    · simp only [takeUntilSub, if_pos hp]
      exact containsSub_nil_of_ne sep hs
    · have h1 : isPrefixL sep (c :: takeUntilSub sep rest) = false := by
        cases hx : isPrefixL sep (c :: takeUntilSub sep rest) with
        | false => rfl
        | true =>
          have hpre : isPrefixL (c :: takeUntilSub sep rest) (c :: rest) = true := by
            simp [isPrefixL, isPrefixL_takeUntilSub]
          exact absurd (isPrefixL_trans hx hpre) hp
      simp [takeUntilSub, if_neg hp, containsSub, h1, ih]

theorem containsSub_of_isPrefixL_append :
    ∀ (a b l : List Char), isPrefixL (a ++ b) l = true → containsSub b l = true := by
  intro a
  induction a with
  | nil =>
    intro b l h
    cases l with
    | nil =>
      cases b with
      | nil => rfl
      | cons x xs => simp [isPrefixL] at h
    | cons c rest =>
      simp only [List.nil_append] at h
      simp [containsSub, h]
  | cons x as ih =>
    intro b l h
    cases l with
    | nil => simp [isPrefixL] at h
    | cons y l' =>
      simp only [List.cons_append, isPrefixL, Bool.and_eq_true] at h
      have := ih b l' h.2
      simp [containsSub, this]

theorem containsSub_append_right :
    ∀ (a b xs : List Char), containsSub (a ++ b) xs = true → containsSub b xs = true := by
  intro a b xs
  induction xs with
  | nil =>
    intro h
    simp only [containsSub, List.isEmpty_iff, List.append_eq_nil] at h
    simp [containsSub, h.2, List.isEmpty_iff]
  | cons c rest ih =>
    intro h
    simp only [containsSub, Bool.or_eq_true] at h
    cases h with
    | inl h => exact containsSub_of_isPrefixL_append a b (c :: rest) h
    | inr h =>
      have := ih h
      simp [containsSub, this]

theorem splitLF_shape (sep : List Char) :
    ∀ fuel xs, xs.length ≤ fuel →
      ∃ ps, splitLF sep fuel xs = takeUntilSub sep xs :: ps := by
  intro fuel
  induction fuel with
  | zero =>
    intro xs h
    cases xs with
    | nil => exact ⟨[], rfl⟩
    | cons c rest => simp at h
  | succ fuel ih =>
    intro xs h
    cases xs with
    | nil => exact ⟨[], rfl⟩
    | cons c rest =>
      by_cases hp : isPrefixL sep (c :: rest) = true
      · refine ⟨splitLF sep fuel (rest.drop (sep.length - 1)), ?_⟩
        simp [splitLF, takeUntilSub, hp]
      · obtain ⟨ps, hps⟩ := ih rest (by
          simp only [List.length_cons] at h; omega)
        exact ⟨ps, by simp [splitLF, takeUntilSub, hp, hps, consHead]⟩

theorem splitL_get0 (sep xs : List Char) :
    (splitL sep xs).get! 0 = takeUntilSub sep xs := by
  obtain ⟨ps, hps⟩ := splitLF_shape sep xs.length xs (Nat.le_refl _)
  simp [splitL, hps]

theorem splitLF_get1 (sep : List Char) (hs : sep ≠ []) :
    ∀ fuel xs, xs.length ≤ fuel → containsSub sep xs = true →
      (splitLF sep fuel xs).get! 1 = takeUntilSub sep (dropThroughSub sep xs) := by
  intro fuel
  induction fuel with
  | zero =>
    intro xs h hc
    cases xs with
    | nil => rw [containsSub_nil_of_ne sep hs] at hc; exact absurd hc (by simp)
    | cons c rest => simp at h
  | succ fuel ih =>
    intro xs h hc
    cases xs with
    | nil => rw [containsSub_nil_of_ne sep hs] at hc; exact absurd hc (by simp)
    | cons c rest =>
      by_cases hp : isPrefixL sep (c :: rest) = true
      · have hlen : (rest.drop (sep.length - 1)).length ≤ fuel := by
          simp only [List.length_cons] at h
          simp only [List.length_drop]
          omega
        obtain ⟨ps, hps⟩ := splitLF_shape sep fuel (rest.drop (sep.length - 1)) hlen
        have hdrop : dropThroughSub sep (c :: rest) = rest.drop (sep.length - 1) := by
          obtain ⟨s, ss, rfl⟩ : ∃ s ss, sep = s :: ss := by
            cases sep with
            | nil => exact absurd rfl hs
            | cons s ss => exact ⟨s, ss, rfl⟩
          simp [dropThroughSub, hp, List.length_cons]
        simp [splitLF, hp, hps, hdrop]
      · have hc' : containsSub sep rest = true := by
          simp only [containsSub, Bool.or_eq_true] at hc
          cases hc with
          | inl hx => exact absurd hx hp
          | inr hx => exact hx
        have hlen : rest.length ≤ fuel := by
          simp only [List.length_cons] at h; omega
        have hrec := ih rest hlen hc'
        obtain ⟨ps, hps⟩ := splitLF_shape sep fuel rest hlen
        have hdrop : dropThroughSub sep (c :: rest) = dropThroughSub sep rest := by
          simp [dropThroughSub, hp]
        rw [hps] at hrec
        simp [splitLF, hp, hps, consHead, hdrop]
        simpa using hrec

theorem splitL_get1 (sep xs : List Char) (hs : sep ≠ [])
    (hc : containsSub sep xs = true) :
    (splitL sep xs).get! 1 = takeUntilSub sep (dropThroughSub sep xs) :=
  splitLF_get1 sep hs xs.length xs (Nat.le_refl _) hc

/-! ## Claim C3: normalizeUrl -/

/-- Modelled from the spec claim wording for C3: the video identifier is "the
path segment after the shorts marker, cut at the first query-string
delimiter", i.e. the text following the first occurrence of the full marker
`youtube.com/shorts/`, truncated at the first `?`.  Compared against
`normalizeUrl`, which is translated from the source. -/
def claimedNormalize (url : String) : String :=
  if jsIncludes url "youtube.com/shorts/" then
    "https://www.youtube.com/watch?v=" ++
      (takeUntilSub ("?".toList)
        (dropThroughSub ("youtube.com/shorts/".toList) url.toList)).asString
  else url

/-- C3 counterexample: on a URL that contains the marker
`youtube.com/shorts/` but also an earlier `/shorts/` occurrence, the source
splits at the *first* `/shorts/`, so the returned identifier is not the
segment after the marker: the claim's expected output is `watch?v=y`, the
code produces `watch?v=x/youtube.com`. -/
theorem normalizeUrl_marker_counterexample :
    jsIncludes "http://a/shorts/x/youtube.com/shorts/y" "youtube.com/shorts/" = true ∧
    normalizeUrl "http://a/shorts/x/youtube.com/shorts/y"
      = "https://www.youtube.com/watch?v=x/youtube.com" ∧
    claimedNormalize "http://a/shorts/x/youtube.com/shorts/y"
      = "https://www.youtube.com/watch?v=y" ∧
    normalizeUrl "http://a/shorts/x/youtube.com/shorts/y"
      ≠ claimedNormalize "http://a/shorts/x/youtube.com/shorts/y" :=
  ⟨by decide, by decide, by decide, by decide⟩

/-- C3 (amended): for every URL containing the marker `youtube.com/shorts/`,
`normalizeUrl` returns the canonical watch-URL prefix followed by an
identifier that contains no `?` (the query string is stripped); the identifier
is the text after the *first* occurrence of `/shorts/` (which may precede the
full marker), truncated at the next `/shorts/` occurrence and then at the
first `?`.  Every URL not containing the marker passes through unchanged. -/
theorem normalizeUrl_amended (url : String) :
    (jsIncludes url "youtube.com/shorts/" = true →
      normalizeUrl url = "https://www.youtube.com/watch?v=" ++
          (takeUntilSub ("?".toList) (takeUntilSub ("/shorts/".toList)
            (dropThroughSub ("/shorts/".toList) url.toList))).asString ∧
      containsSub ("?".toList)
          (takeUntilSub ("?".toList) (takeUntilSub ("/shorts/".toList)
            (dropThroughSub ("/shorts/".toList) url.toList))) = false) ∧
    (jsIncludes url "youtube.com/shorts/" = false → normalizeUrl url = url) := by
  constructor
  · intro h
    have hmark : ("youtube.com/shorts/".toList : List Char)
        = "youtube.com".toList ++ "/shorts/".toList := by decide
    have hcontains : containsSub ("/shorts/".toList) url.toList = true := by
      have h' : containsSub ("youtube.com".toList ++ "/shorts/".toList) url.toList = true := by
        rw [← hmark]; exact h
      exact containsSub_append_right _ _ _ h'
    have h1 : (jsSplit url "/shorts/").get! 1
        = takeUntilSub ("/shorts/".toList) (dropThroughSub ("/shorts/".toList) url.toList) := by
      rw [jsSplit]
      exact splitL_get1 _ _ (by decide) hcontains
    constructor
    · rw [normalizeUrl, if_pos h, h1, splitL_get0]
    · exact containsSub_takeUntilSub _ (by decide) _
  · intro h
    simp [normalizeUrl, h]

/-- Witness for `normalizeUrl_amended`: evaluates both halves, at a real
Shorts URL with a query string and at a non-matching URL. -/
theorem normalizeUrl_amended_witness :
    (normalizeUrl "https://www.youtube.com/shorts/abc123?feature=share"
        = "https://www.youtube.com/watch?v=" ++
          (takeUntilSub ("?".toList) (takeUntilSub ("/shorts/".toList)
            (dropThroughSub ("/shorts/".toList)
              "https://www.youtube.com/shorts/abc123?feature=share".toList))).asString ∧
      containsSub ("?".toList)
          (takeUntilSub ("?".toList) (takeUntilSub ("/shorts/".toList)
            (dropThroughSub ("/shorts/".toList)
              "https://www.youtube.com/shorts/abc123?feature=share".toList))) = false) ∧
    normalizeUrl "https://vimeo.com/12345" = "https://vimeo.com/12345" :=
  ⟨(normalizeUrl_amended "https://www.youtube.com/shorts/abc123?feature=share").1 (by decide),
   (normalizeUrl_amended "https://vimeo.com/12345").2 (by decide)⟩

/-! ## Claims C4 and C5: isSupportedDomain -/

theorem mem_of_mem_dropWhileL {p : Char → Bool} :
    ∀ {l : List Char} {x : Char}, x ∈ l.dropWhile p → x ∈ l := by
  intro l
  induction l with
  | nil => intro x h; simp at h
  | cons c rest ih =>
    intro x h
    by_cases hp : p c = true
    · rw [List.dropWhile_cons_of_pos hp] at h
      exact List.mem_cons_of_mem _ (ih h)
    · rw [List.dropWhile_cons_of_neg hp] at h
      exact h

/-- A URL with no colon has no scheme, so the WHATWG parse throws
(modeled: returns `none`). -/
theorem parseHostname_no_colon (url : String)
    (hc : ∀ c ∈ url.toList, c ≠ ':') : parseHostname url = none := by
  unfold parseHostname
  split
  · rfl
  · rename_i c rest hu
    split
    · split
      · rename_i tail hd
        exfalso
        have hmem : ':' ∈ rest.dropWhile isSchemeChar := by
          rw [hd]; exact List.mem_cons_self _ _
        have : ':' ∈ url.toList := by
          rw [hu]
          exact List.mem_cons_of_mem _ (mem_of_mem_dropWhileL hmem)
        exact hc ':' this rfl
      · rfl
    · rfl

/-- C4: `isSupportedDomain` fails closed.  Whenever the URL-parse fails (the
`try` around `new URL` catches, modeled as `parseHostname url = none`) the
function returns `false`; in particular every colon-free input (no scheme)
fails to parse and yields `false`.  "Never throws" is reflected by
`isSupportedDomain` being a total function into `Bool`. -/
theorem isSupportedDomain_fails_closed (url : String) :
    (parseHostname url = none → isSupportedDomain url = false) ∧
    ((∀ c ∈ url.toList, c ≠ ':') →
      parseHostname url = none ∧ isSupportedDomain url = false) := by
  constructor
  · intro h
    simp [isSupportedDomain, h]
  · intro hc
    have h := parseHostname_no_colon url hc
    exact ⟨h, by simp [isSupportedDomain, h]⟩

/-- Witness for `isSupportedDomain_fails_closed` at the schemeless input
`www.youtube.com/watch`. -/
theorem isSupportedDomain_fails_closed_witness :
    isSupportedDomain "www.youtube.com/watch" = false ∧
    (parseHostname "www.youtube.com/watch" = none ∧
      isSupportedDomain "www.youtube.com/watch" = false) :=
  ⟨(isSupportedDomain_fails_closed "www.youtube.com/watch").1 (by decide),
   (isSupportedDomain_fails_closed "www.youtube.com/watch").2 (by decide)⟩

/-- C5: for every URL the model parses, `isSupportedDomain` returns `true`
iff the hostname *contains* some allow-list entry as a substring (the match is
not suffix-anchored), and in particular the malicious host
`notyoutube.com.evil.example` — which belongs to none of the allow-listed
sites but contains `youtube.com` — is accepted. -/
theorem isSupportedDomain_substring_allowlist :
    (∀ url host, parseHostname url = some host →
      (isSupportedDomain url = true ↔
        ∃ d, d ∈ SUPPORTED_DOMAINS ∧ jsIncludes host d = true)) ∧
    isSupportedDomain "https://notyoutube.com.evil.example/path" = true := by
  constructor
  · intro url host h
    simp [isSupportedDomain, h, List.any_eq_true]
  · decide

/-- Witness for `isSupportedDomain_substring_allowlist`, instantiating the
universal half at the malicious URL. -/
theorem isSupportedDomain_substring_allowlist_witness :
    parseHostname "https://notyoutube.com.evil.example/path"
      = some "notyoutube.com.evil.example" ∧
    (isSupportedDomain "https://notyoutube.com.evil.example/path" = true ↔
      ∃ d, d ∈ SUPPORTED_DOMAINS ∧
        jsIncludes "notyoutube.com.evil.example" d = true) :=
  ⟨by decide,
   isSupportedDomain_substring_allowlist.1 "https://notyoutube.com.evil.example/path"
     "notyoutube.com.evil.example" (by decide)⟩

/-! ## Decimal rendering of the timestamp (JavaScript number-to-string in
the template literal on bot.js line 82) -/

/-- The decimal digit characters. -/
def digitChar : Nat → Char
  | 0 => '0' | 1 => '1' | 2 => '2' | 3 => '3' | 4 => '4'
  | 5 => '5' | 6 => '6' | 7 => '7' | 8 => '8' | _ => '9'

/-- Fuel-indexed decimal rendering (structural recursion keeps it
kernel-reducible); `n` fuel always suffices for `n`. -/
def natCharsF : Nat → Nat → List Char
  | 0, n => [digitChar (n % 10)]
  | fuel + 1, n =>
    if n < 10 then [digitChar n]
    else natCharsF fuel (n / 10) ++ [digitChar (n % 10)]

/-- The decimal digit string of `n`, most significant first (JavaScript
renders an integer-valued number this way in a template literal). -/
def natChars (n : Nat) : List Char := natCharsF n n

/-- JavaScript decimal rendering of a natural number as a `String`. -/
def natToString (n : Nat) : String := (natChars n).asString

/-- Numeric value of a digit character. -/
def charVal (c : Char) : Nat := c.toNat - 48

/-- Value of a digit string, most significant first. -/
def charsVal (l : List Char) : Nat :=
  l.foldl (fun a c => a * 10 + charVal c) 0

theorem charVal_digitChar (n : Nat) (h : n < 10) : charVal (digitChar n) = n := by
  interval_cases n <;> decide

theorem charsVal_append_digit (xs : List Char) (c : Char) :
    charsVal (xs ++ [c]) = charsVal xs * 10 + charVal c := by
  have h : ∀ (a : Nat),
      List.foldl (fun a c => a * 10 + charVal c) a (xs ++ [c])
        = List.foldl (fun a c => a * 10 + charVal c) a xs * 10 + charVal c := by
    intro a
    rw [List.foldl_append]
    rfl
  exact h 0

theorem charsVal_natCharsF :
    ∀ fuel n, n ≤ fuel → charsVal (natCharsF fuel n) = n := by
  intro fuel
  induction fuel with
  | zero =>
    intro n h
    have hn : n = 0 := Nat.le_zero.mp h
    subst hn
    decide
  | succ fuel ih =>
    intro n h
    by_cases hlt : n < 10
    · simp only [natCharsF, if_pos hlt]
      have : charsVal [digitChar n] = charVal (digitChar n) := by
        simp [charsVal, List.foldl]
      rw [this, charVal_digitChar n hlt]
    · simp only [natCharsF, if_neg hlt]
      have hdiv : n / 10 ≤ fuel := by
        have h1 : n / 10 < n := Nat.div_lt_self (by omega) (by omega)
        omega
      rw [charsVal_append_digit, ih (n / 10) hdiv, charVal_digitChar (n % 10) (by omega)]
      omega

theorem charsVal_natChars (n : Nat) : charsVal (natChars n) = n :=
  charsVal_natCharsF n n (Nat.le_refl n)

theorem natChars_inj {m n : Nat} (h : natChars m = natChars n) : m = n := by
  have := congrArg charsVal h
  rwa [charsVal_natChars, charsVal_natChars] at this

theorem string_eq_iff_toList (s t : String) : s = t ↔ s.toList = t.toList := by
  cases s
  cases t
  constructor
  · intro h
    injection h
  · intro h
    rw [show String.toList = String.data from rfl] at h
    simp only at h
    rw [h]

theorem toList_append (s t : String) : (s ++ t).toList = s.toList ++ t.toList := by
  cases s
  cases t
  rfl

/-! ## Bot state and observable actions (bot.js lines 29-41)

The module-level mutable globals become an explicit state record; everything
the process does to the outside world (Telegram API calls, child-process
management, filesystem writes, log appends) becomes an `Outgoing` action in a
trace. -/

/-- One observable side effect of the bot process. -/
inductive Outgoing where
  /-- `bot.sendMessage(chatId, text)` with a string payload. -/
  | message (chatId : Nat) (text : String)
  /-- `bot.sendMessage(chatId, error)` where the payload is a caught
  (non-string, truthy) error object from a rejected API call. -/
  | errorMessage (chatId : Nat)
  /-- `bot.sendAudio`; `none` models an `undefined` file path argument. -/
  | sendAudio (chatId : Nat) (filePath : Option String)
  /-- `bot.sendVideo`; `none` models an `undefined` file path argument. -/
  | sendVideo (chatId : Nat) (filePath : Option String)
  /-- `exec(command, ...)`: the child process is spawned. -/
  | spawnProcess (procId : Nat) (command : String)
  /-- `process.kill('SIGINT')` sent to a tracked child process. -/
  | killProcess (procId : Nat)
  /-- `fs.unlinkSync(filePath)`. -/
  | unlink (filePath : String)
  /-- `logUserAction(chatId, action)`: one appended log record. -/
  | logAction (chatId : Nat) (entry : String)
deriving DecidableEq, Repr

/-- The mutable module-level globals of bot.js: `activeDownloadCount`
(line 36), `currentDownloadProcess` (line 38, the single-slot Active Job
Registry, identified here by a process id), a counter to mint fresh process
ids, and the contents of the downloads directory. -/
structure BotState where
  activeDownloadCount : Int
  currentDownloadProcess : Option Nat
  nextProcId : Nat
  files : List String
deriving DecidableEq, Repr

/-- The state at module load: zero active downloads, no tracked process, an
empty downloads directory. -/
def initialState : BotState := ⟨0, none, 0, []⟩

/-- bot.js line 37. -/
def maxConcurrentDownloads : Int := 5

/-- bot.js line 86. -/
def ytDlpPath : String := "C:/ytdlp/yt-dlp.exe"

/-- bot.js line 30 (modeled by its directory name). -/
def downloadsDir : String := "downloads"

/-- Models `path.join` for the one two-segment use on line 83. -/
def pathJoin (a b : String) : String := a ++ "/" ++ b

/-- bot.js line 82: `` `${Date.now()}.${extension}` ``. -/
def downloadFileName (now : Nat) (isAudio : Bool) : String :=
  natToString now ++ "." ++ (if isAudio then "mp3" else "mp4")

/-- What a call to `downloadMedia` handed back to its caller: `noJob` models
the early `return;` on the queue-full path (the caller receives `undefined`),
`job` models the returned promise for a spawned process. -/
inductive DownloadCall where
  | noJob
  | job (procId : Nat) (filePath : String)
deriving DecidableEq, Repr

/-- bot.js lines 74-89: the synchronous part of `downloadMedia`.  At capacity
it sends the queue-full notice and returns (`noJob`); otherwise it increments
`activeDownloadCount`, derives the output path from the clock, spawns the
fetch tool via `exec` (the shell command string is built by unsanitized
interpolation, reproduced verbatim), and records the process in
`currentDownloadProcess`. -/
def downloadMedia (s : BotState) (now : Nat) (url format : String)
    (isAudio : Bool) (chatId : Nat) : BotState × List Outgoing × DownloadCall :=
  if s.activeDownloadCount ≥ maxConcurrentDownloads then
    (s,
     [Outgoing.message chatId
        "⏳ The download queue is full. Please wait until a slot becomes available."],
     DownloadCall.noJob)
  else
    let fileName := downloadFileName now isAudio
    let filePath := pathJoin downloadsDir fileName
    let command :=
      "\"" ++ ytDlpPath ++ "\" -f " ++ format ++ " -o \"" ++ filePath ++ "\" " ++ url
    let procId := s.nextProcId
    ({ s with activeDownloadCount := s.activeDownloadCount + 1,
              currentDownloadProcess := some procId,
              nextProcId := procId + 1 },
     [Outgoing.spawnProcess procId command], DownloadCall.job procId filePath)

/-- bot.js lines 90-101: the `exec` completion callback.  It decrements the
slot count, resets the registry, and rejects with the captured stderr text on
error, or resolves the output path on success. -/
def execCallback (s : BotState) (filePath : String) (exitOk : Bool)
    (stderr : String) : BotState × Except String String :=
  let s' := { s with activeDownloadCount := s.activeDownloadCount - 1,
                     currentDownloadProcess := none }
  if exitOk then (s', Except.ok filePath)
  else (s', Except.error ("❌ Download error: " ++ stderr))

/-- bot.js lines 104-107: the separately registered `close` listener, which
also decrements the slot count and resets the registry. -/
def closeListener (s : BotState) : BotState :=
  { s with activeDownloadCount := s.activeDownloadCount - 1,
           currentDownloadProcess := none }

/-- Termination of a spawned download process by any path — natural success,
error exit, spawn failure, or external kill.  Node fires the `exec` completion
callback and, the streams having closed, also the separately registered
`close` listener, each exactly once per process.  On a zero exit the external
tool has written the output file. -/
def processExit (s : BotState) (filePath : String) (exitOk : Bool)
    (stderr : String) : BotState × Except String String :=
  let s0 := if exitOk then { s with files := filePath :: s.files } else s
  let r := execCallback s0 filePath exitOk stderr
  (closeListener r.1, r.2)

/-- bot.js lines 150-188: the `/audio` and `/video` command handler, run to
completion for one request.  Oracles stand for the environment: `now` is
`Date.now()` at job start, `exitOk`/`stderr` the child-process outcome,
`sendOk` the transmission outcome.  On the queue-full path `downloadMedia`
returned `undefined`, so `await` yields `undefined` and the handler calls
`bot.sendAudio`/`bot.sendVideo` with an undefined path — the client library
rejects that call, landing in the `catch`, which sends the caught error
object. -/
def audioVideoHandler (s : BotState) (chatId : Nat) (command urlArg : String)
    (now : Nat) (exitOk : Bool) (stderr : String) (sendOk : Bool) :
    BotState × List Outgoing :=
  let url := jsTrim urlArg
  if !(jsStartsWith url "http") then
    (s, [Outgoing.message chatId "⚠️ Please provide a valid URL."])
  else
    let normalizedUrl := normalizeUrl url
    if !(isSupportedDomain normalizedUrl) then
      (s, [Outgoing.message chatId "❌ This URL is not supported."])
    else
      let isAudio := command == "audio"
      let format := if isAudio then "bestaudio" else "bestvideo+bestaudio"
      let pre : List Outgoing :=
        [Outgoing.message chatId
           ("⏳ Downloading " ++ (if isAudio then "audio" else "video") ++ "..."),
         Outgoing.logAction chatId (command ++ " " ++ normalizedUrl)]
      let dm := downloadMedia s now normalizedUrl format isAudio chatId
      match dm.2.2 with
      | DownloadCall.noJob =>
          let attempt := if isAudio then Outgoing.sendAudio chatId none
                         else Outgoing.sendVideo chatId none
          (dm.1, pre ++ dm.2.1 ++ [attempt, Outgoing.errorMessage chatId])
      | DownloadCall.job _ filePath =>
          let pe := processExit dm.1 filePath exitOk stderr
          match pe.2 with
          | Except.error errText =>
              (pe.1, pre ++ dm.2.1 ++
                [Outgoing.message chatId
                   (jsOr errText "❌ Download failed. Please try again.")])
          | Except.ok fp =>
              let attempt := if isAudio then Outgoing.sendAudio chatId (some fp)
                             else Outgoing.sendVideo chatId (some fp)
              if sendOk then
                ({ pe.1 with files := pe.1.files.erase fp },
                 pre ++ dm.2.1 ++ [attempt, Outgoing.unlink fp])
              else
                (pe.1, pre ++ dm.2.1 ++ [attempt, Outgoing.errorMessage chatId])

/-- bot.js lines 227-239: the `/stop` handler.  With no tracked process it
reports that nothing is in progress; otherwise it sends SIGINT to the tracked
process, clears the registry slot itself (immediately, independent of the
process's own exit callbacks), and confirms. -/
def stopHandler (s : BotState) (chatId : Nat) : BotState × List Outgoing :=
  match s.currentDownloadProcess with
  | none => (s, [Outgoing.message chatId "❌ No download in progress."])
  | some procId =>
      ({ s with currentDownloadProcess := none },
       [Outgoing.killProcess procId,
        Outgoing.message chatId "🛑 Download stopped successfully."])

/-- bot.js lines 265-279: the fallback `message` handler.  `msg.text` may be
absent (photo, sticker, voice note); the source dereferences it unguarded
(`msg.text.toLowerCase()`), which throws a TypeError — modeled as
`Except.error ()`.  Otherwise the lowercased, trimmed text is matched against
the greetings, and any non-command text gets the invalid-command notice. -/
def messageHandler (chatId : Nat) (firstName : Option String)
    (text : Option String) : Except Unit (List Outgoing) :=
  match text with
  | none => Except.error ()
  | some raw =>
      let text := jsTrim (jsToLower raw)
      if text == "hi" || text == "hello" then
        Except.ok [Outgoing.message chatId
          ("👋 Hello, " ++ jsOr (firstName.getD "") "User" ++
           "! Welcome to the Media Downloader Bot! Use /help to see available commands.")]
      else if !(jsStartsWith text "/") then
        Except.ok [Outgoing.message chatId
          "❌ Invalid command or message. Use /help command for available commands."]
      else
        Except.ok []

/-! ## Claims C1 and C2: slot release and the admission invariant -/

/-- C1 (refuted — code bug): the source registers *two* decrements for every
spawned process: the `exec` completion callback (line 91) and the separately
registered `close` listener (line 105).  Both fire on any termination, so a
job's termination releases the admission slot exactly twice, never once; a
single successful job run from the idle state leaves the counter at `-1`. -/
theorem processExit_double_release :
    (∀ (s : BotState) (filePath stderr : String) (exitOk : Bool),
      (processExit s filePath exitOk stderr).1.activeDownloadCount
        = s.activeDownloadCount - 2) ∧
    (audioVideoHandler initialState 1 "audio" "https://youtu.be/abc"
        1700000000000 true "" true).1.activeDownloadCount = -1 := by
  constructor
  · intro s filePath stderr exitOk
    cases exitOk <;>
      simp [processExit, execCallback, closeListener] <;> omega
  · decide

/-- C2 (refuted — code bug): six back-to-back admission requests with no
intervening releases do admit exactly five (the sixth is turned away with the
queue-full notice, the state untouched and no process spawned) — but once the
five admitted processes terminate, the double release of C1 drives
`activeDownloadCount` to `-5`, violating `0 ≤ activeCount` and the
return-to-zero property. -/
theorem admission_invariant_violation :
    (let s1 := (downloadMedia initialState 1000 "u" "bestaudio" true 1).1
     let s2 := (downloadMedia s1 1001 "u" "bestaudio" true 1).1
     let s3 := (downloadMedia s2 1002 "u" "bestaudio" true 1).1
     let s4 := (downloadMedia s3 1003 "u" "bestaudio" true 1).1
     let s5 := (downloadMedia s4 1004 "u" "bestaudio" true 1).1
     ((downloadMedia initialState 1000 "u" "bestaudio" true 1).2.2
        ≠ DownloadCall.noJob ∧
      (downloadMedia s1 1001 "u" "bestaudio" true 1).2.2 ≠ DownloadCall.noJob ∧
      (downloadMedia s2 1002 "u" "bestaudio" true 1).2.2 ≠ DownloadCall.noJob ∧
      (downloadMedia s3 1003 "u" "bestaudio" true 1).2.2 ≠ DownloadCall.noJob ∧
      (downloadMedia s4 1004 "u" "bestaudio" true 1).2.2 ≠ DownloadCall.noJob) ∧
     s5.activeDownloadCount = 5 ∧
     (downloadMedia s5 1005 "u" "bestaudio" true 1).2.2 = DownloadCall.noJob ∧
     (downloadMedia s5 1005 "u" "bestaudio" true 1).1 = s5 ∧
     (downloadMedia s5 1005 "u" "bestaudio" true 1).2.1
       = [Outgoing.message 1
            "⏳ The download queue is full. Please wait until a slot becomes available."] ∧
     (let e1 := (processExit s5 "downloads/1000.mp3" true "").1
      let e2 := (processExit e1 "downloads/1001.mp3" true "").1
      let e3 := (processExit e2 "downloads/1002.mp3" true "").1
      let e4 := (processExit e3 "downloads/1003.mp3" true "").1
      let e5 := (processExit e4 "downloads/1004.mp3" true "").1
      e5.activeDownloadCount = -5 ∧ ¬(0 ≤ e5.activeDownloadCount))) := by decide

/-! ## Claim C6: capacity rejection is not terminal -/

/-- C6 (refuted — code bug): with the controller at capacity the requester
does get the queue-full notice and no process is spawned, but the rejection is
not terminal: `downloadMedia` returned `undefined` instead of a rejected
promise, so the handler continues, attempts the transmission with an undefined
file path (`sendAudio` of `none` appears in the trace), and its failure lands
in the `catch`, which sends a second notice — three requester-facing messages
in all, not one. -/
theorem capacity_rejection_not_terminal :
    (let r := audioVideoHandler (⟨5, none, 0, []⟩ : BotState) 7 "audio"
                "https://youtu.be/abc" 1000 true "" true
     r.2 = [Outgoing.message 7 "⏳ Downloading audio...",
            Outgoing.logAction 7 "audio https://youtu.be/abc",
            Outgoing.message 7
              "⏳ The download queue is full. Please wait until a slot becomes available.",
            Outgoing.sendAudio 7 none,
            Outgoing.errorMessage 7] ∧
     Outgoing.sendAudio 7 none ∈ r.2 ∧
     (r.2.filter (fun a => match a with
        | Outgoing.spawnProcess _ _ => true
        | _ => false)) = [] ∧
     (r.2.filter (fun a => match a with
        | Outgoing.message _ _ => true
        | Outgoing.errorMessage _ => true
        | _ => false)).length = 3 ∧
     r.1 = (⟨5, none, 0, []⟩ : BotState)) := by decide

/-! ## Claim C7: the /stop handler -/

/-- C7: `/stop` with an empty Active Job Registry reports "no download in
progress" and has no side effects at all (the state — counter, registry,
files — is returned unchanged and nothing but the notice is emitted); with a
registered handle it sends the kill signal and clears the registry slot in the
handler itself, before and independent of the killed process's own exit
callbacks, leaving the counter and the filesystem untouched. -/
theorem stopHandler_spec (s : BotState) (chatId : Nat) :
    (s.currentDownloadProcess = none →
      stopHandler s chatId
        = (s, [Outgoing.message chatId "❌ No download in progress."])) ∧
    (∀ procId, s.currentDownloadProcess = some procId →
      (stopHandler s chatId).1.currentDownloadProcess = none ∧
      (stopHandler s chatId).1.activeDownloadCount = s.activeDownloadCount ∧
      (stopHandler s chatId).1.files = s.files ∧
      (stopHandler s chatId).2
        = [Outgoing.killProcess procId,
           Outgoing.message chatId "🛑 Download stopped successfully."]) := by
  constructor
  · intro h
    simp [stopHandler, h]
  · intro procId h
    simp [stopHandler, h]

/-- Witness for `stopHandler_spec`: the empty-registry branch at the initial
state and the active-job branch at a state tracking process 0. -/
theorem stopHandler_spec_witness :
    (stopHandler initialState 3
      = (initialState, [Outgoing.message 3 "❌ No download in progress."])) ∧
    ((stopHandler (⟨1, some 0, 1, []⟩ : BotState) 3).1.currentDownloadProcess = none ∧
     (stopHandler (⟨1, some 0, 1, []⟩ : BotState) 3).1.activeDownloadCount
       = (⟨1, some 0, 1, []⟩ : BotState).activeDownloadCount ∧
     (stopHandler (⟨1, some 0, 1, []⟩ : BotState) 3).1.files
       = (⟨1, some 0, 1, []⟩ : BotState).files ∧
     (stopHandler (⟨1, some 0, 1, []⟩ : BotState) 3).2
       = [Outgoing.killProcess 0,
          Outgoing.message 3 "🛑 Download stopped successfully."]) :=
  ⟨(stopHandler_spec initialState 3).1 rfl,
   (stopHandler_spec (⟨1, some 0, 1, []⟩ : BotState) 3).2 0 rfl⟩

/-! ## Claim C9: output path uniqueness -/

/-- C9 counterexample: two distinct admitted jobs (process ids 0 and 1)
started within the same clock millisecond — `Date.now()` is non-decreasing
but not strictly increasing — receive the *same* output path; the file name
is derived from the timestamp alone, with no collision avoidance. -/
theorem fileName_collision_counterexample :
    (let d1 := downloadMedia initialState 1700000000000 "u1" "bestaudio" true 1
     let d2 := downloadMedia d1.1 1700000000000 "u2" "bestaudio" true 2
     d1.2.2 = DownloadCall.job 0 "downloads/1700000000000.mp3" ∧
     d2.2.2 = DownloadCall.job 1 "downloads/1700000000000.mp3") := by decide

theorem toList_asString (l : List Char) : (l.asString).toList = l := rfl

/-- C9 (amended): the output path is a pure function of the start-millisecond
clock value and the requested kind: two admitted jobs receive the same path
*iff* they start in the same `Date.now()` millisecond and request the same
audio/video kind.  Jobs with distinct timestamps (or distinct kinds) always
get distinct paths; the identifier is non-decreasing with the clock rather
than strictly increasing, so same-millisecond same-kind collisions are
possible (see the counterexample). -/
theorem filePath_inj_amended (t1 t2 : Nat) (a1 a2 : Bool) :
    pathJoin downloadsDir (downloadFileName t1 a1)
      = pathJoin downloadsDir (downloadFileName t2 a2) ↔ (t1 = t2 ∧ a1 = a2) := by
  constructor
  · intro h
    rw [string_eq_iff_toList] at h
    simp only [pathJoin, downloadsDir, downloadFileName, natToString, toList_append,
      toList_asString, List.append_assoc] at h
    replace h := List.append_cancel_left h
    replace h := List.append_cancel_left h
    cases a1 <;> cases a2 <;> simp only [Bool.false_eq_true, if_true, if_false] at h
    · exact ⟨natChars_inj (List.append_inj' h (by decide)).1, rfl⟩
    · exact absurd (List.append_inj' h (by decide)).2 (by decide)
    · exact absurd (List.append_inj' h (by decide)).2 (by decide)
    · exact ⟨natChars_inj (List.append_inj' h (by decide)).1, rfl⟩
  · rintro ⟨rfl, rfl⟩
    rfl

/-! ## Claim C8: delivery and cleanup -/

/-- C8: for an admitted job whose process exits zero (the output file is
written), the handler deletes the local file exactly when transmission
succeeds: on success (`Cleaned`) the downloads directory returns to its prior
contents and the output file no longer exists; on transmission failure the
deletion step is not reached, the file stays on disk, and a delivery-failure
notice (the caught error sent back to the requester) is surfaced. -/
theorem delivery_cleanup_spec (s : BotState) (chatId : Nat)
    (command urlArg : String) (now : Nat) (stderr : String) (sendOk : Bool)
    (h1 : jsStartsWith (jsTrim urlArg) "http" = true)
    (h2 : isSupportedDomain (normalizeUrl (jsTrim urlArg)) = true)
    (h3 : s.activeDownloadCount < maxConcurrentDownloads)
    (hfresh : pathJoin downloadsDir (downloadFileName now (command == "audio")) ∉ s.files) :
    (sendOk = true →
      (audioVideoHandler s chatId command urlArg now true stderr sendOk).1.files = s.files ∧
      pathJoin downloadsDir (downloadFileName now (command == "audio"))
        ∉ (audioVideoHandler s chatId command urlArg now true stderr sendOk).1.files ∧
      Outgoing.unlink (pathJoin downloadsDir (downloadFileName now (command == "audio")))
        ∈ (audioVideoHandler s chatId command urlArg now true stderr sendOk).2) ∧
    (sendOk = false →
      (audioVideoHandler s chatId command urlArg now true stderr sendOk).1.files
        = pathJoin downloadsDir (downloadFileName now (command == "audio")) :: s.files ∧
      (∀ q, Outgoing.unlink q
        ∉ (audioVideoHandler s chatId command urlArg now true stderr sendOk).2) ∧
      Outgoing.errorMessage chatId
        ∈ (audioVideoHandler s chatId command urlArg now true stderr sendOk).2) := by
  have h3' : ¬(s.activeDownloadCount ≥ maxConcurrentDownloads) := not_le.mpr h3
  constructor
  · rintro rfl
    cases hca : (command == "audio") <;>
      rw [hca] at hfresh <;>
      simp only [audioVideoHandler, downloadMedia, processExit, execCallback,
        closeListener, h1, h2, h3', hca, Bool.not_true, Bool.not_false, if_false, if_true,
        if_neg h3', Bool.false_eq_true, ite_true, ite_false] <;>
      exact ⟨by rw [List.erase_cons_head],
             by rw [List.erase_cons_head]; exact hfresh,
             by simp⟩
  · rintro rfl
    cases hca : (command == "audio") <;>
      rw [hca] at hfresh <;>
      simp only [audioVideoHandler, downloadMedia, processExit, execCallback,
        closeListener, h1, h2, h3', hca, Bool.not_true, Bool.not_false, if_false, if_true,
        if_neg h3', Bool.false_eq_true, ite_true, ite_false] <;>
      exact ⟨trivial, fun q => by simp, by simp⟩

/-- Witness for `delivery_cleanup_spec`: a concrete `/audio` request from the
idle state, once with a succeeding transmission and once with a failing one. -/
theorem delivery_cleanup_spec_witness :
    ((audioVideoHandler initialState 1 "audio" "https://youtu.be/a" 1000 true "" true).1.files
        = initialState.files ∧
      pathJoin downloadsDir (downloadFileName 1000 ("audio" == "audio"))
        ∉ (audioVideoHandler initialState 1 "audio" "https://youtu.be/a" 1000 true "" true).1.files ∧
      Outgoing.unlink (pathJoin downloadsDir (downloadFileName 1000 ("audio" == "audio")))
        ∈ (audioVideoHandler initialState 1 "audio" "https://youtu.be/a" 1000 true "" true).2) ∧
    ((audioVideoHandler initialState 1 "audio" "https://youtu.be/a" 1000 true "" false).1.files
        = pathJoin downloadsDir (downloadFileName 1000 ("audio" == "audio")) :: initialState.files ∧
      (∀ q, Outgoing.unlink q
        ∉ (audioVideoHandler initialState 1 "audio" "https://youtu.be/a" 1000 true "" false).2) ∧
      Outgoing.errorMessage 1
        ∈ (audioVideoHandler initialState 1 "audio" "https://youtu.be/a" 1000 true "" false).2) :=
  ⟨(delivery_cleanup_spec initialState 1 "audio" "https://youtu.be/a" 1000 "" true
      (by decide) (by decide) (by decide) (by decide)).1 rfl,
   (delivery_cleanup_spec initialState 1 "audio" "https://youtu.be/a" 1000 "" false
      (by decide) (by decide) (by decide) (by decide)).2 rfl⟩

/-! ## Claim C10: the fallback message handler -/

/-- C10: the fallback `message` handler is total only over messages carrying a
text field.  With `msg.text` absent (photo, sticker, voice note) the unguarded
`msg.text.toLowerCase()` dereference throws (modeled: `Except.error ()`)
instead of sending the invalid-command notice; for any non-empty text that is
neither a greeting (`hi`/`hello` after lowercasing and trimming) nor a
command (`/`-initial), exactly one invalid-command notice is sent. -/
theorem messageHandler_spec (chatId : Nat) (firstName : Option String) (t : String)
    (_h0 : t ≠ "")
    (h1 : jsTrim (jsToLower t) ≠ "hi") (h2 : jsTrim (jsToLower t) ≠ "hello")
    (h3 : jsStartsWith (jsTrim (jsToLower t)) "/" = false) :
    messageHandler chatId firstName none = Except.error () ∧
    messageHandler chatId firstName (some t)
      = Except.ok [Outgoing.message chatId
          "❌ Invalid command or message. Use /help command for available commands."] := by
  constructor
  · rfl
  · simp [messageHandler, h1, h2, h3]

/-- Witness for `messageHandler_spec` at a plain non-command text. -/
theorem messageHandler_spec_witness :
    messageHandler 9 (some "Ann") none = Except.error () ∧
    messageHandler 9 (some "Ann") (some "what is this")
      = Except.ok [Outgoing.message 9
          "❌ Invalid command or message. Use /help command for available commands."] :=
  messageHandler_spec 9 (some "Ann") "what is this"
    (by decide) (by decide) (by decide) (by decide)
